import Mathlib

/-!
Shallow embedding of the N-body gravitational core of the orbit-simulator
variants (primarily `space_0_6.py`, with `space_0_7.py` and `space_0_4.py`
where the claims reference them).  Numbers are modelled as exact reals; the
source's Python floats are `ℝ` here, so algebraic identities hold exactly.
The global constants `G` and `MIN_DIST` (module-level in the source, with
different values per variant) are explicit parameters `G M : ℝ`.
-/

namespace OrbitSim

/-- The `Body` class of `space_0_6.py` (lines 197-215): position, velocity,
mass, fixed display radius and name, orbit trail, prediction trail, the
`selected` flag (a selected body is frozen by the integrator), the `is_sun`
flag, and the force-accumulator scratch fields `fx`, `fy`.  The display
color is omitted (chosen randomly by the UI, irrelevant to every claim). -/
structure Body where
  x : ℝ
  y : ℝ
  mass : ℝ
  vx : ℝ
  vy : ℝ
  radius : ℝ
  name : String
  trail : List (ℝ × ℝ)
  prediction_trail : List (ℝ × ℝ)
  selected : Bool
  is_sun : Bool
  fx : ℝ
  fy : ℝ

/-- A default body, used only as the out-of-range default of `List.getD`. -/
noncomputable def dflt : Body :=
  { x := 0, y := 0, mass := 1, vx := 0, vy := 0, radius := 0, name := ""
  , trail := [], prediction_trail := [], selected := false, is_sun := false
  , fx := 0, fy := 0 }

/-- `Body.__init__` (space_0_6.py lines 199-215): fresh trails, not
selected, not a sun, zero force accumulators. -/
noncomputable def Body.init (x y mass vx vy radius : ℝ) (name : String) : Body :=
  { x := x, y := y, mass := mass, vx := vx, vy := vy, radius := radius
  , name := name, trail := [], prediction_trail := [], selected := false
  , is_sun := false, fx := 0, fy := 0 }

/-- `Body.calculate_force_from` (space_0_6.py lines 217-230): gravitational
force exerted on `self` by `other`, with the `MIN_DIST` floor `M` applied to
the distance before dividing. -/
noncomputable def Body.calculate_force_from (G M : ℝ) (self other : Body) : ℝ × ℝ :=
  let dx := other.x - self.x
  let dy := other.y - self.y
  let distance_squared := dx * dx + dy * dy
  let distance := max M (Real.sqrt distance_squared)
  let force_magnitude := G * self.mass * other.mass / (distance * distance)
  (force_magnitude * dx / distance, force_magnitude * dy / distance)

/-- `Body.update_trail` (space_0_6.py lines 246-253): append the current
position when the trail is empty or the last recorded point is more than 2
away in either coordinate, then drop the oldest point past 300 entries. -/
noncomputable def Body.update_trail (b : Body) : Body :=
  let current_pos : ℝ × ℝ := (b.x, b.y)
  let t :=
    if b.trail = [] ∨ 2 < |(b.trail.getLastD (0, 0)).1 - b.x| ∨
        2 < |(b.trail.getLastD (0, 0)).2 - b.y| then
      b.trail ++ [current_pos]
    else b.trail
  { b with trail := if 300 < t.length then t.drop 1 else t }

/-- `Body.apply_force` (space_0_6.py lines 232-244): when the body is not
selected, update velocity by `(f/m)·dt` and then position by the NEW
velocity times `dt` (semi-implicit Euler), and record the trail point;
a selected body is returned untouched. -/
noncomputable def Body.apply_force (b : Body) (fx fy dt : ℝ) : Body :=
  if b.selected then b
  else
    let ax := fx / b.mass
    let ay := fy / b.mass
    let vx := b.vx + ax * dt
    let vy := b.vy + ay * dt
    Body.update_trail
      { b with vx := vx, vy := vy, x := b.x + vx * dt, y := b.y + vy * dt }

/-- `Body.copy_state` (space_0_6.py lines 263-267): a fresh body built by the
constructor from the physical state, with `is_sun` carried over afterwards.
Note the constructor leaves `selected := false` and the copy never resets
it. -/
noncomputable def Body.copy_state (b : Body) : Body :=
  { Body.init b.x b.y b.mass b.vx b.vy b.radius b.name with is_sun := b.is_sun }

/-- The net force accumulated into body `i` by the double loop of
`apply_mutual_gravity` (space_0_6.py lines 456-461): the sum over all
`j ≠ i` of the force on body `i` from body `j`.  The Python loop adds the
terms in index order starting from the reset value `0.0`; over exact reals
the sum is order-independent, so it is written as a `Finset.range` sum. -/
noncomputable def net_force (G M : ℝ) (bodies : List Body) (i : ℕ) : ℝ × ℝ :=
  ∑ j ∈ Finset.range bodies.length,
    if j ≠ i then Body.calculate_force_from G M (bodies.getD i dflt) (bodies.getD j dflt)
    else 0

/-- The first two loops of `apply_mutual_gravity` (space_0_6.py lines
452-461): every body's scratch accumulator is reset and overwritten with its
freshly computed net force; no other field changes. -/
noncomputable def accumulate_forces (G M : ℝ) (bodies : List Body) : List Body :=
  (List.range bodies.length).map fun i =>
    { bodies.getD i dflt with
      fx := (net_force G M bodies i).1, fy := (net_force G M bodies i).2 }

/-- `apply_mutual_gravity` (space_0_6.py lines 450-464): accumulate forces
from the pre-step positions, then apply each body's stored accumulator to
its own state. -/
noncomputable def apply_mutual_gravity (G M dt : ℝ) (bodies : List Body) : List Body :=
  (accumulate_forces G M bodies).map fun b => Body.apply_force b b.fx b.fy dt

/- ## Force-level theorems -/

/-- C1: the pairwise force on `a` from `b` is
`(magnitude · dx / distance, magnitude · dy / distance)` with
`dx = b.x - a.x`, `dy = b.y - a.y`,
`distance = max MIN_DIST (sqrt (dx² + dy²))` and
`magnitude = G · a.mass · b.mass / distance²`; it is by construction a pure
function of the two bodies and the constants `G`, `MIN_DIST`.  (Proved for
all pairs, distinct or not, which subsumes the claim's distinct pairs.) -/
theorem calculate_force_from_spec (G M : ℝ) (a b : Body) :
    Body.calculate_force_from G M a b =
      (G * a.mass * b.mass / (max M (Real.sqrt ((b.x - a.x) ^ 2 + (b.y - a.y) ^ 2))) ^ 2
          * (b.x - a.x) / max M (Real.sqrt ((b.x - a.x) ^ 2 + (b.y - a.y) ^ 2)),
        G * a.mass * b.mass / (max M (Real.sqrt ((b.x - a.x) ^ 2 + (b.y - a.y) ^ 2))) ^ 2
          * (b.y - a.y) / max M (Real.sqrt ((b.x - a.x) ^ 2 + (b.y - a.y) ^ 2))) := by
  simp only [Body.calculate_force_from]
  have hsq : (b.x - a.x) * (b.x - a.x) + (b.y - a.y) * (b.y - a.y)
      = (b.x - a.x) ^ 2 + (b.y - a.y) ^ 2 := by ring
  rw [hsq]
  have hpow : (max M (Real.sqrt ((b.x - a.x) ^ 2 + (b.y - a.y) ^ 2))) *
      (max M (Real.sqrt ((b.x - a.x) ^ 2 + (b.y - a.y) ^ 2))) =
      (max M (Real.sqrt ((b.x - a.x) ^ 2 + (b.y - a.y) ^ 2))) ^ 2 := by ring
  rw [hpow]

lemma calc_force_neg (G M : ℝ) (a b : Body) :
    Body.calculate_force_from G M a b = -Body.calculate_force_from G M b a := by
  simp only [Body.calculate_force_from]
  have hsq : (a.x - b.x) * (a.x - b.x) + (a.y - b.y) * (a.y - b.y)
      = (b.x - a.x) * (b.x - a.x) + (b.y - a.y) * (b.y - a.y) := by ring
  simp only [hsq, Prod.neg_mk, Prod.mk.injEq]
  constructor <;> ring

/-- C6 (Newton's third law): for bodies at non-coincident positions the
force on `a` from `b` is the component-wise negation of the force on `b`
from `a`. -/
theorem force_antisymm (G M : ℝ) (a b : Body) (h : (a.x, a.y) ≠ (b.x, b.y)) :
    Body.calculate_force_from G M a b =
      (-(Body.calculate_force_from G M b a).1, -(Body.calculate_force_from G M b a).2) := by
  rw [calc_force_neg G M a b]
  rfl

/-- C6 witness: Newton's third law at the concrete pair `(0,0)`, `(3,4)`
with the `space_0_6.py` constants `G = 0.5`, `MIN_DIST = 5`. -/
theorem force_antisymm_witness :
    Body.calculate_force_from 0.5 5 (Body.init 0 0 10 0 0 5 "A") (Body.init 3 4 20 0 0 5 "B") =
      (-(Body.calculate_force_from 0.5 5 (Body.init 3 4 20 0 0 5 "B") (Body.init 0 0 10 0 0 5 "A")).1,
        -(Body.calculate_force_from 0.5 5 (Body.init 3 4 20 0 0 5 "B") (Body.init 0 0 10 0 0 5 "A")).2) :=
  force_antisymm 0.5 5 _ _ (by
    intro h
    simp only [Body.init, Prod.mk.injEq] at h
    exact absurd h.1 (by norm_num))

/-- C8 (distance floor): for two bodies at identical coordinates the
displacement is zero, the distance used is exactly the positive floor
`MIN_DIST` (so every divisor in the computation is nonzero), and the
returned force is the finite value `(0, 0)`. -/
theorem coincident_force_floor (G M : ℝ) (a b : Body)
    (hx : a.x = b.x) (hy : a.y = b.y) (hM : 0 < M) :
    Body.calculate_force_from G M a b = (0, 0) ∧
      max M (Real.sqrt ((b.x - a.x) * (b.x - a.x) + (b.y - a.y) * (b.y - a.y))) = M ∧
      M ≠ 0 := by
  have hdx : b.x - a.x = 0 := by rw [hx]; ring
  have hdy : b.y - a.y = 0 := by rw [hy]; ring
  have hdist : max M (Real.sqrt ((b.x - a.x) * (b.x - a.x) + (b.y - a.y) * (b.y - a.y))) = M := by
    rw [hdx, hdy]
    norm_num [Real.sqrt_zero, hM.le]
  refine ⟨?_, hdist, ne_of_gt hM⟩
  unfold Body.calculate_force_from
  simp only [hdx, hdy, hdist]
  norm_num

/-- C8 witness: two bodies both at `(7, -2)` with `MIN_DIST = 5`. -/
theorem coincident_force_floor_witness :
    Body.calculate_force_from 0.5 5 (Body.init 7 (-2) 10 0 0 5 "A")
        (Body.init 7 (-2) 20 3 1 5 "B") = (0, 0) ∧
      max (5 : ℝ)
        (Real.sqrt (((7 : ℝ) - 7) * ((7 : ℝ) - 7) + ((-2 : ℝ) - (-2)) * ((-2 : ℝ) - (-2)))) = 5 ∧
      (5 : ℝ) ≠ 0 :=
  coincident_force_floor 0.5 5 _ _ rfl rfl (by norm_num)

/- ## Indexing lemmas for the integrator -/

lemma update_trail_x (b : Body) : (Body.update_trail b).x = b.x := by
  simp [Body.update_trail]

lemma update_trail_y (b : Body) : (Body.update_trail b).y = b.y := by
  simp [Body.update_trail]

lemma update_trail_vx (b : Body) : (Body.update_trail b).vx = b.vx := by
  simp [Body.update_trail]

lemma update_trail_vy (b : Body) : (Body.update_trail b).vy = b.vy := by
  simp [Body.update_trail]

lemma update_trail_mass (b : Body) : (Body.update_trail b).mass = b.mass := by
  simp [Body.update_trail]

lemma update_trail_selected (b : Body) : (Body.update_trail b).selected = b.selected := by
  simp [Body.update_trail]

lemma update_trail_fx (b : Body) : (Body.update_trail b).fx = b.fx := by
  simp [Body.update_trail]

lemma update_trail_fy (b : Body) : (Body.update_trail b).fy = b.fy := by
  simp [Body.update_trail]

lemma apply_force_of_selected (b : Body) (fx fy dt : ℝ) (h : b.selected = true) :
    Body.apply_force b fx fy dt = b := by
  simp [Body.apply_force, h]

lemma apply_force_mass (b : Body) (fx fy dt : ℝ) :
    (Body.apply_force b fx fy dt).mass = b.mass := by
  by_cases h : b.selected <;> simp [Body.apply_force, h, update_trail_mass]

lemma apply_force_selected (b : Body) (fx fy dt : ℝ) :
    (Body.apply_force b fx fy dt).selected = b.selected := by
  by_cases h : b.selected <;> simp [Body.apply_force, h, update_trail_selected]

lemma apply_force_fx (b : Body) (fx fy dt : ℝ) :
    (Body.apply_force b fx fy dt).fx = b.fx := by
  by_cases h : b.selected <;> simp [Body.apply_force, h, update_trail_fx]

lemma apply_force_fy (b : Body) (fx fy dt : ℝ) :
    (Body.apply_force b fx fy dt).fy = b.fy := by
  by_cases h : b.selected <;> simp [Body.apply_force, h, update_trail_fy]

lemma apply_force_of_not_selected (b : Body) (fx fy dt : ℝ) (h : b.selected = false) :
    (Body.apply_force b fx fy dt).vx = b.vx + fx / b.mass * dt ∧
    (Body.apply_force b fx fy dt).vy = b.vy + fy / b.mass * dt ∧
    (Body.apply_force b fx fy dt).x = b.x + (b.vx + fx / b.mass * dt) * dt ∧
    (Body.apply_force b fx fy dt).y = b.y + (b.vy + fy / b.mass * dt) * dt := by
  simp [Body.apply_force, h, update_trail_x, update_trail_y, update_trail_vx, update_trail_vy]

lemma length_accumulate_forces (G M : ℝ) (bodies : List Body) :
    (accumulate_forces G M bodies).length = bodies.length := by
  simp [accumulate_forces]

lemma length_apply_mutual_gravity (G M dt : ℝ) (bodies : List Body) :
    (apply_mutual_gravity G M dt bodies).length = bodies.length := by
  simp [apply_mutual_gravity, length_accumulate_forces]

lemma getD_accumulate_forces (G M : ℝ) (bodies : List Body) (i : ℕ)
    (hi : i < bodies.length) :
    (accumulate_forces G M bodies).getD i dflt =
      { bodies.getD i dflt with
        fx := (net_force G M bodies i).1, fy := (net_force G M bodies i).2 } := by
  simp [accumulate_forces, List.getD_eq_getElem?_getD, List.getElem?_map,
    List.getElem?_range, hi]

lemma getD_apply_mutual_gravity (G M dt : ℝ) (bodies : List Body) (i : ℕ)
    (hi : i < bodies.length) :
    (apply_mutual_gravity G M dt bodies).getD i dflt =
      Body.apply_force
        { bodies.getD i dflt with
          fx := (net_force G M bodies i).1, fy := (net_force G M bodies i).2 }
        (net_force G M bodies i).1 (net_force G M bodies i).2 dt := by
  have hlen : i < (accumulate_forces G M bodies).length := by
    rw [length_accumulate_forces]; exact hi
  have h1 : (apply_mutual_gravity G M dt bodies).getD i dflt =
      Body.apply_force ((accumulate_forces G M bodies).getD i dflt)
        ((accumulate_forces G M bodies).getD i dflt).fx
        ((accumulate_forces G M bodies).getD i dflt).fy dt := by
    simp [apply_mutual_gravity, List.getD_eq_getElem?_getD, List.getElem?_map,
      List.getElem?_eq_getElem hlen]
  rw [h1, getD_accumulate_forces G M bodies i hi]

lemma length_iterate_step (G M dt : ℝ) (bodies : List Body) (k : ℕ) :
    ((apply_mutual_gravity G M dt) ^[k] bodies).length = bodies.length := by
  induction k with
  | zero => rfl
  | succ n ih => rw [Function.iterate_succ_apply', length_apply_mutual_gravity, ih]

lemma fixed_step_getD (G M dt : ℝ) (bodies : List Body) (i : ℕ)
    (hi : i < bodies.length) (hsel : (bodies.getD i dflt).selected = true) :
    (apply_mutual_gravity G M dt bodies).getD i dflt =
      { bodies.getD i dflt with
        fx := (net_force G M bodies i).1, fy := (net_force G M bodies i).2 } := by
  rw [getD_apply_mutual_gravity G M dt bodies i hi]
  exact apply_force_of_selected _ _ _ _ (by simpa using hsel)

lemma fixed_iterate_getD (G M dt : ℝ) (bodies : List Body) (i : ℕ)
    (hi : i < bodies.length) (hsel : (bodies.getD i dflt).selected = true) (k : ℕ) :
    (((apply_mutual_gravity G M dt) ^[k] bodies).getD i dflt).x = (bodies.getD i dflt).x ∧
    (((apply_mutual_gravity G M dt) ^[k] bodies).getD i dflt).y = (bodies.getD i dflt).y ∧
    (((apply_mutual_gravity G M dt) ^[k] bodies).getD i dflt).vx = (bodies.getD i dflt).vx ∧
    (((apply_mutual_gravity G M dt) ^[k] bodies).getD i dflt).vy = (bodies.getD i dflt).vy ∧
    (((apply_mutual_gravity G M dt) ^[k] bodies).getD i dflt).selected = true := by
  induction k with
  | zero => exact ⟨rfl, rfl, rfl, rfl, hsel⟩
  | succ n ih =>
    obtain ⟨hx, hy, hvx, hvy, hs⟩ := ih
    have hi' : i < ((apply_mutual_gravity G M dt) ^[n] bodies).length := by
      rw [length_iterate_step]; exact hi
    rw [Function.iterate_succ_apply', fixed_step_getD G M dt _ i hi' hs]
    exact ⟨hx, hy, hvx, hvy, hs⟩

/- ## C2: integrator semantics -/

/-- C2: one step of `apply_mutual_gravity` treats body `i` as follows.
(1) If its `selected` (fixed) flag is false, its velocity becomes
`v + (f/m)·dt` with `f` the accumulated net force, and its position advances
by the NEW velocity times `dt` (semi-implicit Euler).
(2) If its flag is true, its position and velocity are exactly unchanged by
any number `k` of step calls.
(3) The net force on any body is unchanged when the `selected` flags of all
bodies are rewritten arbitrarily, so non-fixed bodies respond to gravity
from a fixed body exactly as they would were it not fixed. -/
theorem step_semantics (G M dt : ℝ) (bodies : List Body) (i k : ℕ)
    (hi : i < bodies.length) :
    ((bodies.getD i dflt).selected = false →
      ((apply_mutual_gravity G M dt bodies).getD i dflt).vx =
        (bodies.getD i dflt).vx +
          (net_force G M bodies i).1 / (bodies.getD i dflt).mass * dt ∧
      ((apply_mutual_gravity G M dt bodies).getD i dflt).vy =
        (bodies.getD i dflt).vy +
          (net_force G M bodies i).2 / (bodies.getD i dflt).mass * dt ∧
      ((apply_mutual_gravity G M dt bodies).getD i dflt).x =
        (bodies.getD i dflt).x +
          ((bodies.getD i dflt).vx +
            (net_force G M bodies i).1 / (bodies.getD i dflt).mass * dt) * dt ∧
      ((apply_mutual_gravity G M dt bodies).getD i dflt).y =
        (bodies.getD i dflt).y +
          ((bodies.getD i dflt).vy +
            (net_force G M bodies i).2 / (bodies.getD i dflt).mass * dt) * dt) ∧
    ((bodies.getD i dflt).selected = true →
      (((apply_mutual_gravity G M dt) ^[k] bodies).getD i dflt).x =
          (bodies.getD i dflt).x ∧
      (((apply_mutual_gravity G M dt) ^[k] bodies).getD i dflt).y =
          (bodies.getD i dflt).y ∧
      (((apply_mutual_gravity G M dt) ^[k] bodies).getD i dflt).vx =
          (bodies.getD i dflt).vx ∧
      (((apply_mutual_gravity G M dt) ^[k] bodies).getD i dflt).vy =
          (bodies.getD i dflt).vy) ∧
    (∀ f : Bool → Bool,
      net_force G M (bodies.map fun c => { c with selected := f c.selected }) i =
        net_force G M bodies i) := by
  refine ⟨?_, ?_, ?_⟩
  · intro hsel
    rw [getD_apply_mutual_gravity G M dt bodies i hi]
    have := apply_force_of_not_selected
      { bodies.getD i dflt with
        fx := (net_force G M bodies i).1, fy := (net_force G M bodies i).2 }
      (net_force G M bodies i).1 (net_force G M bodies i).2 dt (by simpa using hsel)
    exact this
  · intro hsel
    obtain ⟨hx, hy, hvx, hvy, _⟩ := fixed_iterate_getD G M dt bodies i hi hsel k
    exact ⟨hx, hy, hvx, hvy⟩
  · intro f
    unfold net_force
    rw [List.length_map]
    refine Finset.sum_congr rfl fun j hj => ?_
    rw [Finset.mem_range] at hj
    by_cases hji : j ≠ i
    · simp only [if_pos hji]
      have hgi : (bodies.map fun c => { c with selected := f c.selected }).getD i dflt =
          { bodies.getD i dflt with selected := f (bodies.getD i dflt).selected } := by
        simp [List.getD_eq_getElem?_getD, List.getElem?_map, List.getElem?_eq_getElem hi]
      have hgj : (bodies.map fun c => { c with selected := f c.selected }).getD j dflt =
          { bodies.getD j dflt with selected := f (bodies.getD j dflt).selected } := by
        simp [List.getD_eq_getElem?_getD, List.getElem?_map, List.getElem?_eq_getElem hj]
      rw [hgi, hgj]
      simp [Body.calculate_force_from]
    · simp [hji]

/-- C2 witness: in a concrete two-body system (a fixed heavy body, index 0,
and a free light one) the fixed body's position and velocity are unchanged
after `k = 2` steps, by instantiating `step_semantics` there. -/
theorem step_semantics_witness :
    (((apply_mutual_gravity 1 1 1) ^[2]
        [{ Body.init 0 0 1000 0 0 5 "A" with selected := true },
          Body.init 100 0 1 0 0 5 "B"]).getD 0 dflt).x =
      (([{ Body.init 0 0 1000 0 0 5 "A" with selected := true },
          Body.init 100 0 1 0 0 5 "B"] : List Body).getD 0 dflt).x ∧
    (((apply_mutual_gravity 1 1 1) ^[2]
        [{ Body.init 0 0 1000 0 0 5 "A" with selected := true },
          Body.init 100 0 1 0 0 5 "B"]).getD 0 dflt).y =
      (([{ Body.init 0 0 1000 0 0 5 "A" with selected := true },
          Body.init 100 0 1 0 0 5 "B"] : List Body).getD 0 dflt).y ∧
    (((apply_mutual_gravity 1 1 1) ^[2]
        [{ Body.init 0 0 1000 0 0 5 "A" with selected := true },
          Body.init 100 0 1 0 0 5 "B"]).getD 0 dflt).vx =
      (([{ Body.init 0 0 1000 0 0 5 "A" with selected := true },
          Body.init 100 0 1 0 0 5 "B"] : List Body).getD 0 dflt).vx ∧
    (((apply_mutual_gravity 1 1 1) ^[2]
        [{ Body.init 0 0 1000 0 0 5 "A" with selected := true },
          Body.init 100 0 1 0 0 5 "B"]).getD 0 dflt).vy =
      (([{ Body.init 0 0 1000 0 0 5 "A" with selected := true },
          Body.init 100 0 1 0 0 5 "B"] : List Body).getD 0 dflt).vy :=
  (step_semantics 1 1 1
      [{ Body.init 0 0 1000 0 0 5 "A" with selected := true },
        Body.init 100 0 1 0 0 5 "B"] 0 2 (by norm_num)).2.1 rfl

/- ## C9: force accumulators overwritten for every body -/

/-- C9: after one `apply_mutual_gravity` call, EVERY body's `fx`/`fy`
scratch fields hold the freshly accumulated net force from all other bodies
computed at the pre-step positions — with no condition on the body's
`selected` (fixed) flag, so this covers fixed bodies too, whose position and
velocity stay put while their accumulators are still overwritten. -/
theorem step_overwrites_accumulators (G M dt : ℝ) (bodies : List Body) (i : ℕ)
    (hi : i < bodies.length) :
    ((apply_mutual_gravity G M dt bodies).getD i dflt).fx = (net_force G M bodies i).1 ∧
    ((apply_mutual_gravity G M dt bodies).getD i dflt).fy = (net_force G M bodies i).2 := by
  rw [getD_apply_mutual_gravity G M dt bodies i hi]
  constructor
  · rw [apply_force_fx]
  · rw [apply_force_fy]

/-- C9 witness: the fixed body of a concrete two-body system has its
accumulators overwritten by the step. -/
theorem step_overwrites_accumulators_witness :
    ((apply_mutual_gravity 1 1 1
        [{ Body.init 0 0 1000 0 0 5 "A" with selected := true, fx := 999 },
          Body.init 100 0 1 0 0 5 "B"]).getD 0 dflt).fx =
      (net_force 1 1
        [{ Body.init 0 0 1000 0 0 5 "A" with selected := true, fx := 999 },
          Body.init 100 0 1 0 0 5 "B"] 0).1 ∧
    ((apply_mutual_gravity 1 1 1
        [{ Body.init 0 0 1000 0 0 5 "A" with selected := true, fx := 999 },
          Body.init 100 0 1 0 0 5 "B"]).getD 0 dflt).fy =
      (net_force 1 1
        [{ Body.init 0 0 1000 0 0 5 "A" with selected := true, fx := 999 },
          Body.init 100 0 1 0 0 5 "B"] 0).2 :=
  step_overwrites_accumulators 1 1 1 _ 0 (by norm_num)

/- ## C7: momentum conservation -/

/-- Total momentum of the system: the sum over all bodies of
`mass · velocity`, component-wise. -/
noncomputable def momentum (bodies : List Body) : ℝ × ℝ :=
  (bodies.map fun b => ((b.mass * b.vx, b.mass * b.vy) : ℝ × ℝ)).sum

lemma list_map_sum_getD {α : Type*} [AddCommMonoid α] (l : List Body) (f : Body → α) :
    (l.map f).sum = ∑ i ∈ Finset.range l.length, f (l.getD i dflt) := by
  induction l with
  | nil => simp
  | cons a t ih =>
    rw [List.map_cons, List.sum_cons, List.length_cons, Finset.sum_range_succ', ih]
    simp [add_comm]

lemma getD_mem_of_lt (l : List Body) (i : ℕ) (hi : i < l.length) :
    l.getD i dflt ∈ l := by
  rw [List.getD_eq_getElem?_getD, List.getElem?_eq_getElem hi]
  exact List.getElem_mem hi

lemma sum_net_force_zero (G M : ℝ) (bodies : List Body) :
    ∑ i ∈ Finset.range bodies.length, net_force G M bodies i = 0 := by
  set n := bodies.length
  set g : ℕ → ℕ → ℝ × ℝ := fun i j =>
    if j ≠ i then Body.calculate_force_from G M (bodies.getD i dflt) (bodies.getD j dflt)
    else 0 with hg
  have hS : ∑ i ∈ Finset.range n, net_force G M bodies i =
      ∑ i ∈ Finset.range n, ∑ j ∈ Finset.range n, g i j := rfl
  have hpair : ∀ i j : ℕ, g i j + g j i = 0 := by
    intro i j
    by_cases hij : j = i
    · simp [hg, hij]
    · simp only [hg, if_pos hij, if_pos (Ne.symm hij), ne_eq]
      rw [calc_force_neg G M (bodies.getD i dflt) (bodies.getD j dflt)]
      simp [hij, Ne.symm hij]
  have hdouble : (∑ i ∈ Finset.range n, ∑ j ∈ Finset.range n, g i j) +
      (∑ i ∈ Finset.range n, ∑ j ∈ Finset.range n, g i j) = 0 := by
    nth_rewrite 2 [Finset.sum_comm]
    rw [← Finset.sum_add_distrib]
    have : ∀ i ∈ Finset.range n,
        (∑ j ∈ Finset.range n, g i j) + ∑ j ∈ Finset.range n, g j i = 0 := by
      intro i _
      rw [← Finset.sum_add_distrib]
      exact Finset.sum_eq_zero fun j _ => hpair i j
    rw [Finset.sum_congr rfl this, Finset.sum_const, smul_zero]
  rw [hS]
  set S := ∑ i ∈ Finset.range n, ∑ j ∈ Finset.range n, g i j with hSdef
  have h1 : S.1 = 0 := by
    have := congrArg Prod.fst hdouble
    simp only [Prod.fst_add, Prod.fst_zero] at this
    linarith
  have h2 : S.2 = 0 := by
    have := congrArg Prod.snd hdouble
    simp only [Prod.snd_add, Prod.snd_zero] at this
    linarith
  exact Prod.ext h1 h2

lemma mass_cancel (m v f dt : ℝ) (hm : m ≠ 0) :
    m * (v + f / m * dt) = m * v + dt * f := by
  field_simp
  ring

lemma momentum_step (G M dt : ℝ) (bodies : List Body)
    (hsel : ∀ b ∈ bodies, b.selected = false)
    (hm : ∀ b ∈ bodies, b.mass ≠ 0) :
    momentum (apply_mutual_gravity G M dt bodies) = momentum bodies := by
  unfold momentum
  rw [list_map_sum_getD, list_map_sum_getD, length_apply_mutual_gravity]
  have hterm : ∀ i ∈ Finset.range bodies.length,
      (((apply_mutual_gravity G M dt bodies).getD i dflt).mass *
          ((apply_mutual_gravity G M dt bodies).getD i dflt).vx,
        ((apply_mutual_gravity G M dt bodies).getD i dflt).mass *
          ((apply_mutual_gravity G M dt bodies).getD i dflt).vy) =
      (((bodies.getD i dflt).mass * (bodies.getD i dflt).vx,
          (bodies.getD i dflt).mass * (bodies.getD i dflt).vy) : ℝ × ℝ) +
        dt • net_force G M bodies i := by
    intro i hi
    rw [Finset.mem_range] at hi
    have hb := getD_mem_of_lt bodies i hi
    have hs : (bodies.getD i dflt).selected = false := hsel _ hb
    have hmz : (bodies.getD i dflt).mass ≠ 0 := hm _ hb
    rw [getD_apply_mutual_gravity G M dt bodies i hi]
    obtain ⟨hvx, hvy, _, _⟩ := apply_force_of_not_selected
      { bodies.getD i dflt with
        fx := (net_force G M bodies i).1, fy := (net_force G M bodies i).2 }
      (net_force G M bodies i).1 (net_force G M bodies i).2 dt (by simpa using hs)
    rw [apply_force_mass, hvx, hvy]
    dsimp only
    apply Prod.ext
    · simp only [Prod.fst_add, Prod.smul_fst, smul_eq_mul]
      exact mass_cancel _ _ _ dt hmz
    · simp only [Prod.snd_add, Prod.smul_snd, smul_eq_mul]
      exact mass_cancel _ _ _ dt hmz
  rw [Finset.sum_congr rfl hterm, Finset.sum_add_distrib, ← Finset.smul_sum,
    sum_net_force_zero, smul_zero, add_zero]

lemma step_physical_origin (G M dt : ℝ) (bodies : List Body) (b' : Body)
    (hb' : b' ∈ apply_mutual_gravity G M dt bodies) :
    ∃ b ∈ bodies, b'.mass = b.mass ∧ b'.selected = b.selected := by
  simp only [apply_mutual_gravity, accumulate_forces, List.map_map, List.mem_map,
    List.mem_range, Function.comp] at hb'
  obtain ⟨i, hi, rfl⟩ := hb'
  refine ⟨bodies.getD i dflt, getD_mem_of_lt bodies i hi, ?_, ?_⟩
  · rw [apply_force_mass]
  · rw [apply_force_selected]

lemma iterate_step_hyps (G M dt : ℝ) (bodies : List Body)
    (hsel : ∀ b ∈ bodies, b.selected = false)
    (hm : ∀ b ∈ bodies, b.mass ≠ 0) (k : ℕ) :
    (∀ b ∈ (apply_mutual_gravity G M dt) ^[k] bodies, b.selected = false) ∧
    (∀ b ∈ (apply_mutual_gravity G M dt) ^[k] bodies, b.mass ≠ 0) := by
  induction k with
  | zero => exact ⟨hsel, hm⟩
  | succ n ih =>
    obtain ⟨ihs, ihm⟩ := ih
    rw [Function.iterate_succ_apply']
    constructor <;> intro b' hb'
    · obtain ⟨b, hb, _, hbs⟩ := step_physical_origin G M dt _ b' hb'
      rw [hbs]; exact ihs b hb
    · obtain ⟨b, hb, hbm, _⟩ := step_physical_origin G M dt _ b' hb'
      rw [hbm]; exact ihm b hb

/-- C7: for a closed system — every body's `selected` (fixed) flag false and
every mass nonzero — the total momentum `∑ mass · velocity` is exactly
invariant (in the exact real arithmetic of this model) under any number of
`apply_mutual_gravity` steps, because the pairwise forces are equal and
opposite. -/
theorem momentum_conserved (G M dt : ℝ) (bodies : List Body) (k : ℕ)
    (hsel : ∀ b ∈ bodies, b.selected = false)
    (hm : ∀ b ∈ bodies, b.mass ≠ 0) :
    momentum ((apply_mutual_gravity G M dt) ^[k] bodies) = momentum bodies := by
  induction k with
  | zero => rfl
  | succ n ih =>
    obtain ⟨hs', hm'⟩ := iterate_step_hyps G M dt bodies hsel hm n
    rw [Function.iterate_succ_apply', momentum_step G M dt _ hs' hm', ih]

/-- C7 witness: a concrete closed two-body system, five steps. -/
theorem momentum_conserved_witness :
    momentum ((apply_mutual_gravity 0.5 5 1) ^[5]
        [Body.init 0 0 1000 1 2 5 "A", Body.init 100 0 1 (-3) 0 5 "B"]) =
      momentum [Body.init 0 0 1000 1 2 5 "A", Body.init 100 0 1 (-3) 0 5 "B"] :=
  momentum_conserved 0.5 5 1 _ 5
    (by
      intro b hb
      simp only [List.mem_cons, List.not_mem_nil, or_false] at hb
      rcases hb with rfl | rfl <;> rfl)
    (by
      intro b hb
      simp only [List.mem_cons, List.not_mem_nil, or_false] at hb
      rcases hb with rfl | rfl <;> norm_num [Body.init])

/- ## Trajectory predictor -/

/-- The position of body `i` in a working set, as recorded into a
prediction trail. -/
noncomputable def posOf (bodies : List Body) (i : ℕ) : ℝ × ℝ :=
  ((bodies.getD i dflt).x, (bodies.getD i dflt).y)

/-- The recording step of `predict_future_positions` (space_0_6.py lines
481-483): append each working body's current position to the corresponding
live body's prediction trail. -/
noncomputable def record_predictions (pred live : List Body) : List Body :=
  List.zipWith
    (fun lb pb =>
      { lb with prediction_trail := lb.prediction_trail ++ [(pb.x, pb.y)] })
    live pred

/-- The forward-simulation loop of `predict_future_positions` (space_0_6.py
lines 476-483): `s` is the current step index, the second argument the
remaining step count; each iteration advances the working set and, when
`s % stride = 0`, records positions into the live bodies. -/
noncomputable def prediction_loop (G M dt : ℝ) (stride : ℕ) :
    ℕ → ℕ → List Body → List Body → List Body × List Body
  | _, 0, pred, live => (pred, live)
  | s, Nat.succ k, pred, live =>
    prediction_loop G M dt stride (s + 1) k (apply_mutual_gravity G M dt pred)
      (if s % stride = 0 then
        record_predictions (apply_mutual_gravity G M dt pred) live
      else live)

/-- `predict_future_positions` (space_0_6.py lines 466-483, stride 3; the
space_0_7.py variant at lines 386-398 is identical with stride 5): copy
every body via `copy_state`, clear every live body's prediction trail, then
run the sampling loop on the working copies. -/
noncomputable def predict_future_positions (G M : ℝ) (stride : ℕ)
    (bodies : List Body) (steps : ℕ) (dt : ℝ) : List Body :=
  (prediction_loop G M dt stride 0 steps (bodies.map Body.copy_state)
    (bodies.map fun b => { b with prediction_trail := [] })).2

lemma getD_zipWith_body (f : Body → Body → Body) :
    ∀ (l1 l2 : List Body) (i : ℕ), i < l1.length → i < l2.length →
      (List.zipWith f l1 l2).getD i dflt = f (l1.getD i dflt) (l2.getD i dflt) := by
  intro l1
  induction l1 with
  | nil => intro l2 i h1 _; simp at h1
  | cons a t ih =>
    intro l2 i h1 h2
    cases l2 with
    | nil => simp at h2
    | cons b t2 =>
      cases i with
      | zero => rfl
      | succ j =>
        simp only [List.zipWith_cons_cons, List.getD_cons_succ]
        exact ih t2 j (by simpa using h1) (by simpa using h2)

lemma le_of_mem_range' : ∀ (n s t : ℕ), t ∈ List.range' s n → s ≤ t := by
  intro n
  induction n with
  | zero => intro s t ht; simp [List.range'] at ht
  | succ m ih =>
    intro s t ht
    rcases List.mem_cons.mp ht with rfl | ht'
    · exact le_rfl
    · exact Nat.le_of_succ_le (ih (s + 1) t ht')

lemma map_shift (G M dt : ℝ) (stride s n : ℕ) (pred : List Body) (i : ℕ) :
    (((List.range' (s + 1) n).filter fun t => t % stride == 0).map fun t =>
        posOf ((apply_mutual_gravity G M dt) ^[t + 1 - (s + 1)]
          (apply_mutual_gravity G M dt pred)) i) =
      ((List.range' (s + 1) n).filter fun t => t % stride == 0).map fun t =>
        posOf ((apply_mutual_gravity G M dt) ^[t + 1 - s] pred) i := by
  apply List.map_congr_left
  intro t ht
  have hst : s + 1 ≤ t := le_of_mem_range' n (s + 1) t (List.mem_filter.mp ht).1
  have h1 : t + 1 - (s + 1) = t - s := by omega
  have h2 : t + 1 - s = (t - s) + 1 := by omega
  rw [h1, h2, Function.iterate_succ_apply]

lemma prediction_loop_live (G M dt : ℝ) (stride : ℕ) :
    ∀ (k s : ℕ) (pred live : List Body), pred.length = live.length →
      (prediction_loop G M dt stride s k pred live).2.length = live.length ∧
      ∀ i, i < live.length →
        (prediction_loop G M dt stride s k pred live).2.getD i dflt =
          { live.getD i dflt with
            prediction_trail := (live.getD i dflt).prediction_trail ++
              (((List.range' s k).filter fun t => t % stride == 0).map fun t =>
                posOf ((apply_mutual_gravity G M dt) ^[t + 1 - s] pred) i) } := by
  intro k
  induction k with
  | zero =>
    intro s pred live _
    refine ⟨rfl, fun i _ => ?_⟩
    simp [prediction_loop, List.range']
  | succ n ih =>
    intro s pred live hlen
    have hplen : (apply_mutual_gravity G M dt pred).length = live.length := by
      rw [length_apply_mutual_gravity, hlen]
    have hcons : List.range' s (n + 1) = s :: List.range' (s + 1) n := rfl
    by_cases hs : s % stride = 0
    · have hllen : (record_predictions (apply_mutual_gravity G M dt pred) live).length
          = live.length := by
        simp [record_predictions, List.length_zipWith, hplen]
      have hloop : prediction_loop G M dt stride s (n + 1) pred live =
          prediction_loop G M dt stride (s + 1) n (apply_mutual_gravity G M dt pred)
            (record_predictions (apply_mutual_gravity G M dt pred) live) := by
        simp [prediction_loop, hs]
      obtain ⟨ihL, ihD⟩ := ih (s + 1) (apply_mutual_gravity G M dt pred)
        (record_predictions (apply_mutual_gravity G M dt pred) live)
        (by rw [length_apply_mutual_gravity, hllen]; exact hlen)
      refine ⟨by rw [hloop, ihL, hllen], ?_⟩
      intro i hi
      have hi' : i < (record_predictions (apply_mutual_gravity G M dt pred) live).length := by
        rw [hllen]; exact hi
      rw [hloop, ihD i hi']
      have hrec : (record_predictions (apply_mutual_gravity G M dt pred) live).getD i dflt =
          { live.getD i dflt with
            prediction_trail := (live.getD i dflt).prediction_trail ++
              [posOf (apply_mutual_gravity G M dt pred) i] } := by
        unfold record_predictions posOf
        rw [getD_zipWith_body _ live _ i hi (by rw [hplen]; exact hi)]
      rw [hrec]
      dsimp only
      have hfil : (s :: List.range' (s + 1) n).filter (fun t => t % stride == 0) =
          s :: (List.range' (s + 1) n).filter (fun t => t % stride == 0) := by
        rw [List.filter_cons]
        simp [hs]
      have htrail :
          (((live.getD i dflt).prediction_trail ++
              [posOf (apply_mutual_gravity G M dt pred) i]) ++
            (((List.range' (s + 1) n).filter fun t => t % stride == 0).map fun t =>
              posOf ((apply_mutual_gravity G M dt) ^[t + 1 - (s + 1)]
                (apply_mutual_gravity G M dt pred)) i)) =
          (live.getD i dflt).prediction_trail ++
            (((List.range' s (n + 1)).filter fun t => t % stride == 0).map fun t =>
              posOf ((apply_mutual_gravity G M dt) ^[t + 1 - s] pred) i) := by
        rw [hcons, hfil, List.map_cons, map_shift, List.append_assoc, List.singleton_append]
        have h1s : s + 1 - s = 1 := by omega
        rw [h1s, Function.iterate_one]
      rw [htrail]
    · have hloop : prediction_loop G M dt stride s (n + 1) pred live =
          prediction_loop G M dt stride (s + 1) n (apply_mutual_gravity G M dt pred) live := by
        simp [prediction_loop, hs]
      obtain ⟨ihL, ihD⟩ := ih (s + 1) (apply_mutual_gravity G M dt pred) live hplen
      refine ⟨by rw [hloop, ihL], ?_⟩
      intro i hi
      rw [hloop, ihD i hi]
      have hfil : (s :: List.range' (s + 1) n).filter (fun t => t % stride == 0) =
          (List.range' (s + 1) n).filter (fun t => t % stride == 0) := by
        rw [List.filter_cons]
        simp [hs]
      have htrail :
          (((List.range' (s + 1) n).filter fun t => t % stride == 0).map fun t =>
              posOf ((apply_mutual_gravity G M dt) ^[t + 1 - (s + 1)]
                (apply_mutual_gravity G M dt pred)) i) =
            ((List.range' s (n + 1)).filter fun t => t % stride == 0).map fun t =>
              posOf ((apply_mutual_gravity G M dt) ^[t + 1 - s] pred) i := by
        rw [hcons, hfil, map_shift]
      rw [htrail]

lemma getD_map_clear (bodies : List Body) (i : ℕ) (hi : i < bodies.length) :
    (bodies.map fun b => { b with prediction_trail := ([] : List (ℝ × ℝ)) }).getD i dflt =
      { bodies.getD i dflt with prediction_trail := [] } := by
  simp [List.getD_eq_getElem?_getD, List.getElem?_map, List.getElem?_eq_getElem hi]

lemma predict_length (G M dt : ℝ) (stride steps : ℕ) (bodies : List Body) :
    (predict_future_positions G M stride bodies steps dt).length = bodies.length := by
  unfold predict_future_positions
  rw [(prediction_loop_live G M dt stride steps 0 (bodies.map Body.copy_state)
      (bodies.map fun b => { b with prediction_trail := [] }) (by simp)).1]
  simp

lemma predict_getD (G M dt : ℝ) (stride steps : ℕ) (bodies : List Body) (i : ℕ)
    (hi : i < bodies.length) :
    (predict_future_positions G M stride bodies steps dt).getD i dflt =
      { bodies.getD i dflt with
        prediction_trail :=
          ((List.range steps).filter fun t => t % stride == 0).map fun t =>
            posOf ((apply_mutual_gravity G M dt) ^[t + 1] (bodies.map Body.copy_state)) i } := by
  unfold predict_future_positions
  rw [(prediction_loop_live G M dt stride steps 0 (bodies.map Body.copy_state)
      (bodies.map fun b => { b with prediction_trail := [] }) (by simp)).2 i (by simp [hi]),
    getD_map_clear bodies i hi]
  dsimp only
  rw [List.nil_append, List.range_eq_range']
  simp

/- ## C3: the predictor does not mutate live bodies -/

/-- C3: iterating the predictor any number `k` of times leaves every live
body's position, velocity and mass (indeed every field except the
`prediction_trail` output slot, which is replaced) exactly as it was, and
the list length is preserved: the forward simulation runs only on the
disposable `copy_state` working set. -/
theorem predict_non_mutating (G M dt : ℝ) (stride steps k : ℕ) (bodies : List Body)
    (i : ℕ) (hi : i < bodies.length) :
    ((fun bs => predict_future_positions G M stride bs steps dt) ^[k] bodies).getD i dflt =
      { bodies.getD i dflt with
        prediction_trail :=
          (((fun bs => predict_future_positions G M stride bs steps dt) ^[k] bodies).getD
            i dflt).prediction_trail } ∧
    ((fun bs => predict_future_positions G M stride bs steps dt) ^[k] bodies).length =
      bodies.length ∧
    (((fun bs => predict_future_positions G M stride bs steps dt) ^[k] bodies).getD
        i dflt).x = (bodies.getD i dflt).x ∧
    (((fun bs => predict_future_positions G M stride bs steps dt) ^[k] bodies).getD
        i dflt).y = (bodies.getD i dflt).y ∧
    (((fun bs => predict_future_positions G M stride bs steps dt) ^[k] bodies).getD
        i dflt).vx = (bodies.getD i dflt).vx ∧
    (((fun bs => predict_future_positions G M stride bs steps dt) ^[k] bodies).getD
        i dflt).vy = (bodies.getD i dflt).vy ∧
    (((fun bs => predict_future_positions G M stride bs steps dt) ^[k] bodies).getD
        i dflt).mass = (bodies.getD i dflt).mass := by
  have main : ∀ m : ℕ,
      ((fun bs => predict_future_positions G M stride bs steps dt) ^[m] bodies).getD i dflt =
        { bodies.getD i dflt with
          prediction_trail :=
            (((fun bs => predict_future_positions G M stride bs steps dt) ^[m] bodies).getD
              i dflt).prediction_trail } ∧
      ((fun bs => predict_future_positions G M stride bs steps dt) ^[m] bodies).length =
        bodies.length := by
    intro m
    induction m with
    | zero => exact ⟨rfl, rfl⟩
    | succ n ihn =>
      obtain ⟨ihD, ihL⟩ := ihn
      have hi' : i < ((fun bs => predict_future_positions G M stride bs steps dt) ^[n]
          bodies).length := by rw [ihL]; exact hi
      constructor
      · rw [Function.iterate_succ_apply', predict_getD G M dt stride steps _ i hi', ihD]
      · rw [Function.iterate_succ_apply', predict_length, ihL]
  obtain ⟨hD, hL⟩ := main k
  exact ⟨hD, hL, by rw [hD], by rw [hD], by rw [hD], by rw [hD], by rw [hD]⟩

/-- C3 witness: a concrete two-body list, two predictor invocations,
index 1. -/
theorem predict_non_mutating_witness :
    ((fun bs => predict_future_positions 0.5 5 3 bs 4 1) ^[2]
        [Body.init 0 0 1000 1 2 5 "A", Body.init 100 0 1 (-3) 0 5 "B"]).getD 1 dflt =
      { ([Body.init 0 0 1000 1 2 5 "A", Body.init 100 0 1 (-3) 0 5 "B"] : List Body).getD
          1 dflt with
        prediction_trail :=
          (((fun bs => predict_future_positions 0.5 5 3 bs 4 1) ^[2]
            [Body.init 0 0 1000 1 2 5 "A", Body.init 100 0 1 (-3) 0 5 "B"]).getD
              1 dflt).prediction_trail } ∧
    ((fun bs => predict_future_positions 0.5 5 3 bs 4 1) ^[2]
        [Body.init 0 0 1000 1 2 5 "A", Body.init 100 0 1 (-3) 0 5 "B"]).length = 2 ∧
    (((fun bs => predict_future_positions 0.5 5 3 bs 4 1) ^[2]
        [Body.init 0 0 1000 1 2 5 "A", Body.init 100 0 1 (-3) 0 5 "B"]).getD 1 dflt).x =
      (([Body.init 0 0 1000 1 2 5 "A", Body.init 100 0 1 (-3) 0 5 "B"] : List Body).getD
        1 dflt).x ∧
    (((fun bs => predict_future_positions 0.5 5 3 bs 4 1) ^[2]
        [Body.init 0 0 1000 1 2 5 "A", Body.init 100 0 1 (-3) 0 5 "B"]).getD 1 dflt).y =
      (([Body.init 0 0 1000 1 2 5 "A", Body.init 100 0 1 (-3) 0 5 "B"] : List Body).getD
        1 dflt).y ∧
    (((fun bs => predict_future_positions 0.5 5 3 bs 4 1) ^[2]
        [Body.init 0 0 1000 1 2 5 "A", Body.init 100 0 1 (-3) 0 5 "B"]).getD 1 dflt).vx =
      (([Body.init 0 0 1000 1 2 5 "A", Body.init 100 0 1 (-3) 0 5 "B"] : List Body).getD
        1 dflt).vx ∧
    (((fun bs => predict_future_positions 0.5 5 3 bs 4 1) ^[2]
        [Body.init 0 0 1000 1 2 5 "A", Body.init 100 0 1 (-3) 0 5 "B"]).getD 1 dflt).vy =
      (([Body.init 0 0 1000 1 2 5 "A", Body.init 100 0 1 (-3) 0 5 "B"] : List Body).getD
        1 dflt).vy ∧
    (((fun bs => predict_future_positions 0.5 5 3 bs 4 1) ^[2]
        [Body.init 0 0 1000 1 2 5 "A", Body.init 100 0 1 (-3) 0 5 "B"]).getD 1 dflt).mass =
      (([Body.init 0 0 1000 1 2 5 "A", Body.init 100 0 1 (-3) 0 5 "B"] : List Body).getD
        1 dflt).mass :=
  predict_non_mutating 0.5 5 1 3 4 2
    [Body.init 0 0 1000 1 2 5 "A", Body.init 100 0 1 (-3) 0 5 "B"] 1 (by norm_num)

/- ## C4: the snapshot drops the fixed/selected flag -/

/-- A concrete live body that is currently fixed (`selected = true`) and has
nonzero velocity. -/
noncomputable def fixedProbe : Body :=
  { Body.init 0 0 10 3 0 5 "P" with selected := true }

/-- C4 counterexample: `copy_state` does NOT copy the `selected` flag — the
constructor leaves the copy's flag false — so when the predictor runs on the
single fixed body `fixedProbe` (at the origin, velocity `(3, 0)`), the
working copy IS advanced: the first recorded prediction point is `(3, 0)`,
not the body's frozen position `(0, 0)`. -/
theorem predict_advances_fixed_body :
    fixedProbe.selected = true ∧
    (Body.copy_state fixedProbe).selected = false ∧
    ((predict_future_positions 0.5 5 3 [fixedProbe] 1 1).getD 0 dflt).prediction_trail =
      [((3 : ℝ), (0 : ℝ))] ∧
    ((3 : ℝ), (0 : ℝ)) ≠ (fixedProbe.x, fixedProbe.y) := by
  refine ⟨rfl, rfl, ?_, ?_⟩
  · rw [predict_getD 0.5 5 1 3 1 [fixedProbe] 0 (by norm_num)]
    dsimp only
    have hfil : (List.range 1).filter (fun t => t % 3 == 0) = [0] := rfl
    rw [hfil, List.map_cons, List.map_nil]
    have hstep : (apply_mutual_gravity 0.5 5 1) ^[0 + 1] ([fixedProbe].map Body.copy_state) =
        apply_mutual_gravity 0.5 5 1 [Body.copy_state fixedProbe] := by
      rw [Function.iterate_one]
      rfl
    rw [hstep]
    have hnet : net_force 0.5 5 [Body.copy_state fixedProbe] 0 = 0 := by
      unfold net_force
      simp
    unfold posOf
    rw [getD_apply_mutual_gravity 0.5 5 1 [Body.copy_state fixedProbe] 0 (by norm_num), hnet]
    norm_num [Body.apply_force, update_trail_x, update_trail_y, Body.copy_state,
      Body.init, fixedProbe, List.getD]
  · intro h
    have := congrArg Prod.fst h
    simp only [fixedProbe, Body.init] at this
    norm_num at this

/-- C4 amended: `copy_state` copies position, velocity, mass, radius, name
and `is_sun`, but NOT the `selected` (fixed) flag: the working copy's flag
is always false (and its trails are fresh, its accumulators zero), so a body
fixed in the live simulation is NOT frozen in the predictive simulation. -/
theorem copy_state_spec (b : Body) :
    (Body.copy_state b).x = b.x ∧
    (Body.copy_state b).y = b.y ∧
    (Body.copy_state b).mass = b.mass ∧
    (Body.copy_state b).vx = b.vx ∧
    (Body.copy_state b).vy = b.vy ∧
    (Body.copy_state b).radius = b.radius ∧
    (Body.copy_state b).name = b.name ∧
    (Body.copy_state b).is_sun = b.is_sun ∧
    (Body.copy_state b).selected = false ∧
    (Body.copy_state b).trail = [] ∧
    (Body.copy_state b).prediction_trail = [] ∧
    (Body.copy_state b).fx = 0 ∧
    (Body.copy_state b).fy = 0 :=
  ⟨rfl, rfl, rfl, rfl, rfl, rfl, rfl, rfl, rfl, rfl, rfl, rfl, rfl⟩

/- ## C10: sampling structure of the prediction sequence -/

lemma length_filter_range_mod (stride : ℕ) (hstride : 0 < stride) :
    ∀ n : ℕ, ((List.range n).filter fun t => t % stride == 0).length
      = (n + stride - 1) / stride := by
  intro n
  induction n with
  | zero =>
    rw [List.range_zero]
    simp only [List.filter_nil, List.length_nil, Nat.zero_add]
    exact (Nat.div_eq_of_lt (by omega)).symm
  | succ m ih =>
    rw [List.range_succ, List.filter_append, List.length_append, ih]
    have hL : m + 1 + stride - 1 = (m + stride - 1) + 1 := by omega
    rw [hL, Nat.succ_div]
    have hX : (m + stride - 1) + 1 = m + stride := by omega
    have hiff : (stride ∣ (m + stride - 1) + 1) ↔ m % stride = 0 := by
      rw [hX, Nat.dvd_add_self_right]
      exact Nat.dvd_iff_mod_eq_zero
    by_cases h : m % stride = 0
    · rw [if_pos (hiff.mpr h)]
      have hone : (List.filter (fun t => t % stride == 0) [m]).length = 1 := by simp [h]
      rw [hone]
    · rw [if_neg fun hd => h (hiff.mp hd)]
      have hzero : (List.filter (fun t => t % stride == 0) [m]).length = 0 := by simp [h]
      rw [hzero]

lemma head_filter_range (stride n : ℕ) (hn : 1 ≤ n) :
    ((List.range n).filter fun t => t % stride == 0).head? = some 0 := by
  obtain ⟨m, rfl⟩ : ∃ m, n = m + 1 := ⟨n - 1, by omega⟩
  rw [List.range_succ_eq_map, List.filter_cons]
  simp

/-- C10: for any body list and positive stride (3 in `space_0_6.py`, 5 in
`space_0_7.py`), the prediction sequence written to body `i` satisfies:
with `steps = 0` it is empty; with `steps ≥ 1` its FIRST point is the
working copy's position after one full integration step from the snapshot
(never the snapshot position itself); and it holds exactly
`(steps + stride - 1) / stride` — that is, `⌈steps / stride⌉` — points. -/
theorem predict_sampling (G M dt : ℝ) (bodies : List Body) (steps stride i : ℕ)
    (hstride : 0 < stride) (hi : i < bodies.length) :
    (steps = 0 →
      ((predict_future_positions G M stride bodies steps dt).getD i dflt).prediction_trail
        = []) ∧
    (1 ≤ steps →
      ((predict_future_positions G M stride bodies steps dt).getD
          i dflt).prediction_trail.head? =
        some (posOf (apply_mutual_gravity G M dt (bodies.map Body.copy_state)) i)) ∧
    ((predict_future_positions G M stride bodies steps dt).getD
        i dflt).prediction_trail.length = (steps + stride - 1) / stride := by
  rw [predict_getD G M dt stride steps bodies i hi]
  dsimp only
  refine ⟨?_, ?_, ?_⟩
  · intro h
    subst h
    simp
  · intro hsteps
    rw [List.head?_map, head_filter_range stride steps hsteps]
    norm_num
  · rw [List.length_map, length_filter_range_mod stride hstride steps]

/-- C10 witness: one body, `steps = 4`, stride 3 (so `⌈4/3⌉ = 2` points),
and also stride 5 at `steps = 0`. -/
theorem predict_sampling_witness :
    ((1 ≤ 4 →
      ((predict_future_positions 0.5 5 3 [Body.init 7 8 10 1 0 5 "A"] 4 1).getD
          0 dflt).prediction_trail.head? =
        some (posOf (apply_mutual_gravity 0.5 5 1
          ([Body.init 7 8 10 1 0 5 "A"].map Body.copy_state)) 0)) ∧
    ((predict_future_positions 0.5 5 3 [Body.init 7 8 10 1 0 5 "A"] 4 1).getD
        0 dflt).prediction_trail.length = 2) ∧
    ((0 : ℕ) = 0 →
      ((predict_future_positions 0.5 5 5 [Body.init 7 8 10 1 0 5 "A"] 0 1).getD
          0 dflt).prediction_trail = []) :=
  ⟨⟨(predict_sampling 0.5 5 1 [Body.init 7 8 10 1 0 5 "A"] 4 3 0 (by norm_num)
      (by norm_num)).2.1,
    (predict_sampling 0.5 5 1 [Body.init 7 8 10 1 0 5 "A"] 4 3 0 (by norm_num)
      (by norm_num)).2.2⟩,
    (predict_sampling 0.5 5 1 [Body.init 7 8 10 1 0 5 "A"] 0 5 0 (by norm_num)
      (by norm_num)).1⟩

/- ## C5: creation/edit mass handling -/

/-- The body constructed by `create_planet_from_input` (space_0_6.py lines
769-789): the UI inputs are clamped — mass into `[50, 1000]`, velocity
components into `[-50, 50]` — and the body is appended unconditionally;
there is no `InvalidBodyState` (or any other) error anywhere in the source,
and the surrounding `try` block only prints.  The random display color is
omitted; `PLANET_RADIUS = 8`. -/
noncomputable def create_planet_from_input (x y massIn vxIn vyIn : ℝ) (n : ℕ) : Body :=
  Body.init x y (max 50 (min 1000 massIn)) (max (-50) (min 50 vxIn))
    (max (-50) (min 50 vyIn)) 8 ("Planet-" ++ toString n)

/-- The mass written by `apply_edit_values` (space_0_4.py line 593): the
edited mass is clamped to at least 50; no error is raised and no prior
value is restored. -/
noncomputable def apply_edit_mass (input : ℝ) : ℝ := max 50 input

/-- C5 counterexample: supplying the non-positive mass `-5` does NOT fail —
creation returns a body with the clamped mass `50`, and editing yields the
clamped mass `50`; no `InvalidBodyState` error exists in the code. -/
theorem create_negative_mass_clamped :
    (create_planet_from_input 0 0 (-5) 0 0 0).mass = 50 ∧
    0 < (create_planet_from_input 0 0 (-5) 0 0 0).mass ∧
    apply_edit_mass (-5) = 50 := by
  refine ⟨?_, ?_, ?_⟩
  · show max 50 (min 1000 (-5 : ℝ)) = 50
    norm_num
  · show (0 : ℝ) < max 50 (min 1000 (-5 : ℝ))
    norm_num
  · show max (50 : ℝ) (-5) = 50
    norm_num

/-- C5 amended: creation clamps the supplied mass into `[50, 1000]` and edit
clamps it to at least `50`, both totally (no error is raised, no prior state
is restored), so every body produced through these paths has a strictly
positive mass — the `mass > 0` invariant is maintained by clamping, not by
an `InvalidBodyState` error. -/
theorem mass_clamped_positive (x y massIn vxIn vyIn : ℝ) (n : ℕ) :
    (create_planet_from_input x y massIn vxIn vyIn n).mass = max 50 (min 1000 massIn) ∧
    0 < (create_planet_from_input x y massIn vxIn vyIn n).mass ∧
    apply_edit_mass massIn = max 50 massIn ∧
    0 < apply_edit_mass massIn := by
  refine ⟨rfl, ?_, rfl, ?_⟩
  · show (0 : ℝ) < max 50 (min 1000 massIn)
    have h : (50 : ℝ) ≤ max 50 (min 1000 massIn) := le_max_left _ _
    linarith
  · show (0 : ℝ) < max 50 massIn
    have h : (50 : ℝ) ≤ max 50 massIn := le_max_left _ _
    linarith

end OrbitSim
